import Mathlib

/-!
Verification of `scripts/extract_snippets.py`: a single-pass converter that
reads a JSON mapping of snippet definitions, normalizes each entry's trigger
into a `\<name>`-style key, flattens each body, counts key collisions, and
writes the flat mapping back out.  The script is embedded shallowly: JSON
values (as Python's `json.load` yields them) become an inductive type,
Python dicts become insertion-ordered association lists, and each uncaught
Python exception is an `Except.error` carrying the exception's message.
-/

namespace ExtractSnippets

/-- JSON values as Python's `json.load` produces them.  `jnull` doubles as
Python's `None` (both JSON `null` and an absent field read via `dict.get`
give `None`).  Numbers are modelled as integers; no claim involves the
textual form of a non-integer number. -/
inductive JVal where
  | jnull : JVal
  | jbool : Bool → JVal
  | jnum : Int → JVal
  | jstr : String → JVal
  | jarr : List JVal → JVal
  | jobj : List (String × JVal) → JVal

/-- Python truthiness of a json-decoded value (line 27, `if not prefix`). -/
def truthy : JVal → Bool
  | .jnull => false
  | .jbool b => b
  | .jnum n => n != 0
  | .jstr s => s != ""
  | .jarr xs => !xs.isEmpty
  | .jobj fs => !fs.isEmpty

/-- The Python type name of a json-decoded value, as it appears in
`AttributeError` and `TypeError` messages. -/
def pyTypeName : JVal → String
  | .jnull => "NoneType"
  | .jbool _ => "bool"
  | .jnum _ => "int"
  | .jstr _ => "str"
  | .jarr _ => "list"
  | .jobj _ => "dict"

/-- Lookup in a Python dict modelled as an insertion-ordered association
list (`d.get(k)`, `k in d`). -/
def getKey {α : Type} : List (String × α) → String → Option α
  | [], _ => none
  | (k, v) :: rest, key => if k = key then some v else getKey rest key

/-- `d[k] = v` on a Python dict: overwrite in place when the key is present
(its position is kept), otherwise append at the end. -/
def setKey {α : Type} : List (String × α) → String → α → List (String × α)
  | [], key, v => [(key, v)]
  | (k, w) :: rest, key, v =>
    if k = key then (k, v) :: rest else (k, w) :: setKey rest key v

/-- Python `s.startswith(p)` (line 42): character-level prefix test. -/
def pyStartswith (s p : String) : Bool := p.data.isPrefixOf s.data

/-- Python `s[1:]` (line 46): drop the first character. -/
def pyTail (s : String) : String := String.mk s.data.tail

/-- Python `repr` of a string: single-quoted, with backslashes and single
quotes escaped.  (CPython switches to double quotes when the string holds a
single quote but no double quote; that cosmetic choice is not modelled.) -/
def pyReprStr (s : String) : String :=
  "\x27" ++
    String.mk (List.flatten (s.data.map (fun c =>
      if c = '\\' then ['\\', '\\']
      else if c = '\x27' then ['\\', '\x27']
      else [c]))) ++ "\x27"

mutual

/-- Python `repr` of a json-decoded value. -/
def pyRepr : JVal → String
  | .jnull => "None"
  | .jbool true => "True"
  | .jbool false => "False"
  | .jnum n => toString n
  | .jstr s => pyReprStr s
  | .jarr xs => "[" ++ String.intercalate ", " (pyReprList xs) ++ "]"
  | .jobj fs => "\x7b" ++ String.intercalate ", " (pyReprFields fs) ++ "\x7d"

/-- `repr` of each element of a Python list. -/
def pyReprList : List JVal → List String
  | [] => []
  | v :: rest => pyRepr v :: pyReprList rest

/-- `repr` of each `key: value` pair of a Python dict. -/
def pyReprFields : List (String × JVal) → List String
  | [] => []
  | (k, v) :: rest => (pyReprStr k ++ ": " ++ pyRepr v) :: pyReprFields rest

end

/-- Python `str()` (line 61, `str(body)`): identity on strings, `repr` on
the other json-decoded values. -/
def pyStr : JVal → String
  | .jstr s => s
  | v => pyRepr v

/-- `snippet_obj.get(key)` (lines 26 and 53): raises `AttributeError` unless
the value is a dict; an absent key and a JSON `null` field both come back as
Python `None` (`jnull`). -/
def objGet (obj : JVal) (key : String) : Except String JVal :=
  match obj with
  | .jobj fs => .ok ((getKey fs key).getD .jnull)
  | v => .error ("\x27" ++ pyTypeName v ++ "\x27 object has no attribute \x27get\x27")

/-- Lines 26-38: fetch the entry's `prefix` and select the raw trigger.
`none` means the entry is skipped (falsy prefix, empty list, or a shape that
is neither a list nor a string); a list's first element is taken as is. -/
def selectRaw (obj : JVal) : Except String (Option JVal) :=
  match objGet obj "prefix" with
  | .error e => .error e
  | .ok pfx =>
    if truthy pfx then
      match pfx with
      | .jarr [] => .ok none
      | .jarr (x :: _) => .ok (some x)
      | .jstr s => .ok (some (.jstr s))
      | _ => .ok none
    else .ok none

/-- Lines 42-51: `raw_key.startswith('\\')` and the f-string rewrite.  A
non-string raw key raises `AttributeError` at the `startswith` call. -/
def normalizeKey : JVal → Except String String
  | .jstr s =>
    if pyStartswith s "\\" then .ok ("\\<" ++ pyTail s ++ ">")
    else .ok ("\\<" ++ s ++ ">")
  | v => .error ("\x27" ++ pyTypeName v ++ "\x27 object has no attribute \x27startswith\x27")

/-- `"\n".join(body)` (line 57): every element must be a string, otherwise
Python raises `TypeError` naming the first offending index. -/
def joinBody : Nat → List JVal → Except String (List String)
  | _, [] => .ok []
  | i, .jstr s :: rest => (joinBody (i + 1) rest).map (fun r => s :: r)
  | i, v :: _ =>
    .error ("sequence item " ++ toString i ++ ": expected str instance, " ++
      pyTypeName v ++ " found")

/-- Lines 53-61: flatten the entry's `body` into one string. -/
def flattenBody : JVal → Except String String
  | .jnull => .ok ""
  | .jarr xs => (joinBody 0 xs).map (String.intercalate "\n")
  | .jstr s => .ok s
  | v => .ok (pyStr v)

/-- Lines 26-61 for one entry: `.ok none` = entry skipped, `.ok (some (key,
bodyStr))` = the pair about to be inserted, `.error` = an uncaught Python
exception. -/
def processEntry (obj : JVal) : Except String (Option (String × String)) :=
  match selectRaw obj with
  | .error e => .error e
  | .ok none => .ok none
  | .ok (some raw) =>
    match normalizeKey raw with
    | .error e => .error e
    | .ok key =>
      match objGet obj "body" with
      | .error e => .error e
      | .ok b =>
        match flattenBody b with
        | .error e => .error e
        | .ok bodyStr => .ok (some (key, bodyStr))

/-- The two dicts the loop builds (lines 22-23): `out` and `duplicates`. -/
structure BuildState where
  out : List (String × String)
  dups : List (String × Nat)
deriving DecidableEq

/-- Lines 63-66: count the collision when the key is already present, then
`out[key] = body_str`. -/
def store (st : BuildState) (key bodyStr : String) : BuildState :=
  let dups :=
    if (getKey st.out key).isSome then
      setKey st.dups key ((getKey st.dups key).getD 0 + 1)
    else st.dups
  ⟨setKey st.out key bodyStr, dups⟩

/-- One iteration of the loop (lines 25-66). -/
def stepEntry (st : BuildState) (obj : JVal) : Except String BuildState :=
  match processEntry obj with
  | .error e => .error e
  | .ok none => .ok st
  | .ok (some (key, bodyStr)) => .ok (store st key bodyStr)

/-- Lines 22-66: the whole loop over `data.items()`, in insertion order. -/
def build (data : List (String × JVal)) : Except String BuildState :=
  data.foldlM (fun st kv => stepEntry st kv.2) ⟨[], []⟩

/-- JSON string escaping as `json.dump` performs it for the strings this
script emits (`ensure_ascii=False` keeps non-ASCII characters literal;
control characters other than newline, tab and carriage return do not occur
in the claims and are left unescaped by this model). -/
def jsonEscapeChar (c : Char) : List Char :=
  if c = '\\' then ['\\', '\\']
  else if c = '"' then ['\\', '"']
  else if c = '\n' then ['\\', 'n']
  else if c = '\t' then ['\\', 't']
  else if c = '\r' then ['\\', 'r']
  else [c]

/-- A JSON string literal for `json.dump`. -/
def jsonQuote (s : String) : String :=
  "\"" ++ String.mk (List.flatten (s.data.map jsonEscapeChar)) ++ "\""

/-- Lines 69-70: `json.dump(out, f, indent=2, ensure_ascii=False)` on the
string-to-string mapping, keys in insertion order. -/
def jsonDump (out : List (String × String)) : String :=
  if out.isEmpty then "\x7b\x7d"
  else
    "\x7b\n" ++
      String.intercalate ",\n"
        (out.map (fun p => "  " ++ jsonQuote p.1 ++ ": " ++ jsonQuote p.2)) ++
      "\n\x7d"

/-- Line 73: the duplicate-keys warning, with the Python `repr` of the list
of up to five example keys. -/
def dupWarning (dups : List (String × Nat)) : String :=
  "Warning: " ++ toString dups.length ++
    " duplicate keys encountered (last write wins). Examples: " ++
    "[" ++ String.intercalate ", " (((dups.map Prod.fst).take 5).map pyReprStr) ++ "]"

/-- The observable result of one run of `main()`: a normal exit with its
status code, the printed lines and the final file system, or an uncaught
Python exception (which prints a traceback and exits nonzero). -/
inductive Outcome where
  | exited : Nat → List String → List (String × String) → Outcome
  | crashed : String → List (String × String) → Outcome
deriving DecidableEq

/-- The file system an outcome leaves behind. -/
def finalFs : Outcome → List (String × String)
  | .exited _ _ fs => fs
  | .crashed _ fs => fs

/-- `main()` (lines 5-76) for given input and output paths.  The file system
is an association list from path to contents; `os.path.exists` is a lookup,
reading and writing go through the same list.  The standard-library JSON
parser (line 17, `json.load`) is not part of this repository and is
abstracted as the `parse` parameter; `json.load` returning a non-dict value
makes `data.items()` raise, and any exception escaping the loop is an
`Outcome.crashed`.  The output-write `IOError` branch (lines 74-76) is not
reachable in this file-system model and is not modelled. -/
def run (parse : String → Except String JVal) (fs : List (String × String))
    (inputPath outputPath : String) : Outcome :=
  match getKey fs inputPath with
  | none => .exited 1 ["Error: Input file \x27" ++ inputPath ++ "\x27 not found."] fs
  | some content =>
    match parse content with
    | .error e =>
      .exited 1 ["Error: Failed to parse JSON from \x27" ++ inputPath ++ "\x27: " ++ e] fs
    | .ok (.jobj items) =>
      match build items with
      | .error e => .crashed e fs
      | .ok st =>
        .exited 0
          (["Successfully extracted " ++ toString st.out.length ++
              " snippets to \x27" ++ outputPath ++ "\x27."] ++
            (if st.dups.isEmpty then [] else [dupWarning st.dups]))
          (setKey fs outputPath (jsonDump st.out))
    | .ok v => .crashed ("\x27" ++ pyTypeName v ++ "\x27 object has no attribute \x27items\x27") fs

/-! Helper lemmas shared by the claim theorems. -/

theorem data_bs_append (t : String) : ("\\" ++ t).data = '\\' :: t.data := by
  rw [String.data_append]; rfl

theorem pyStartswith_bs_append (t : String) : pyStartswith ("\\" ++ t) "\\" = true := by
  show List.isPrefixOf "\\".data ("\\" ++ t).data = true
  rw [data_bs_append]
  show List.isPrefixOf ['\\'] ('\\' :: t.data) = true
  simp [List.isPrefixOf]

theorem pyTail_bs_append (t : String) : pyTail ("\\" ++ t) = t := by
  show String.mk (("\\" ++ t).data.tail) = t
  rw [data_bs_append]
  rfl

theorem pyStartswith_bs_false (s : String) (h : s.data.head? ≠ some '\\') :
    pyStartswith s "\\" = false := by
  obtain ⟨l⟩ := s
  cases l with
  | nil => rfl
  | cons c cs =>
    have hc : c ≠ '\\' := by
      intro hc
      exact h (by rw [hc]; rfl)
    show List.isPrefixOf ['\\'] (c :: cs) = false
    simp [List.isPrefixOf]
    exact fun hb => hc hb.symm

theorem normalizeKey_bs (t : String) :
    normalizeKey (.jstr ("\\" ++ t)) = .ok ("\\<" ++ t ++ ">") := by
  simp [normalizeKey, pyStartswith_bs_append, pyTail_bs_append]

theorem normalizeKey_no_bs (s : String) (h : s.data.head? ≠ some '\\') :
    normalizeKey (.jstr s) = .ok ("\\<" ++ s ++ ">") := by
  simp [normalizeKey, pyStartswith_bs_false s h]

theorem joinBody_map_jstr (i : Nat) (lines : List String) :
    joinBody i (lines.map JVal.jstr) = .ok lines := by
  induction lines generalizing i with
  | nil => rfl
  | cons s rest ih => simp [joinBody, ih, Except.map]

theorem flattenBody_lines (lines : List String) :
    flattenBody (.jarr (lines.map JVal.jstr)) = .ok (String.intercalate "\n" lines) := by
  simp [flattenBody, joinBody_map_jstr, Except.map]

theorem getKey_setKey {α : Type} (d : List (String × α)) (k q : String) (v : α) :
    getKey (setKey d k v) q = if k = q then some v else getKey d q := by
  induction d with
  | nil => simp [setKey, getKey]
  | cons hd tl ih =>
    obtain ⟨k0, w⟩ := hd
    simp only [setKey]
    by_cases h0 : k0 = k
    · subst h0
      simp only [if_pos rfl, getKey]
      by_cases hq : k0 = q <;> simp [hq]
    · rw [if_neg h0]
      simp only [getKey]
      by_cases hq : k0 = q
      · subst hq
        rw [if_pos rfl, if_neg fun hkq => h0 hkq.symm, if_pos rfl]
      · rw [if_neg hq, if_neg hq, ih]

/-! The claim theorems. -/

/-- C1: `normalizeKey` maps a trigger whose first character is a backslash to
a backslash followed by the remainder of the trigger wrapped in literal angle
brackets, and any other trigger to the whole trigger wrapped in the same
backslash-angle-bracket pattern; in particular `"foo"` yields `"\<foo>"` and
`"\zero"` yields `"\<zero>"`. -/
theorem extract_C1 (s : String) :
    (∀ t : String, s = "\\" ++ t →
      normalizeKey (.jstr s) = .ok ("\\<" ++ t ++ ">"))
    ∧ (s.data.head? ≠ some '\\' →
      normalizeKey (.jstr s) = .ok ("\\<" ++ s ++ ">"))
    ∧ normalizeKey (.jstr "foo") = .ok "\\<foo>"
    ∧ normalizeKey (.jstr "\\zero") = .ok "\\<zero>" :=
  ⟨fun t ht => ht ▸ normalizeKey_bs t, fun h => normalizeKey_no_bs s h, rfl, rfl⟩

/-- Witness for C1 at the concrete trigger `"\ab"`. -/
theorem extract_C1_witness :
    normalizeKey (.jstr "\\ab") = .ok ("\\<" ++ "ab" ++ ">") :=
  (extract_C1 "\\ab").1 "ab" rfl

/-- C5: `flattenBody` yields the empty string on an absent body (an absent
`body` field reads back as Python `None`, i.e. `jnull`), the newline-join of
the lines on a sequence of lines, the string itself on a single string, and
the generic textual representation, with no error, on every other shape. -/
theorem extract_C5 :
    flattenBody .jnull = .ok ""
    ∧ (∀ fields : List (String × JVal), getKey fields "body" = none →
        objGet (.jobj fields) "body" = .ok .jnull)
    ∧ (∀ lines : List String,
        flattenBody (.jarr (lines.map JVal.jstr)) = .ok (String.intercalate "\n" lines))
    ∧ (∀ s, flattenBody (.jstr s) = .ok s)
    ∧ (∀ n, flattenBody (.jnum n) = .ok (pyStr (.jnum n)))
    ∧ (∀ b, flattenBody (.jbool b) = .ok (pyStr (.jbool b)))
    ∧ (∀ fs, flattenBody (.jobj fs) = .ok (pyStr (.jobj fs))) := by
  refine ⟨rfl, ?_, flattenBody_lines, fun s => rfl, fun n => rfl, fun b => rfl, fun fs => rfl⟩
  intro fields h
  simp [objGet, h]

/-- Witness for C5: an entry with no `body` field reads back `None`. -/
theorem extract_C5_witness :
    objGet (.jobj ([] : List (String × JVal))) "body" = .ok .jnull :=
  extract_C5.2.1 [] rfl

/-- C6: flattening a list of lines and flattening the single string obtained
by joining those lines with newlines give the same output body; in
particular `["a", "b", "c"]` and `"a\nb\nc"` both flatten to `"a\nb\nc"`. -/
theorem extract_C6 :
    (∀ lines : List String,
      flattenBody (.jarr (lines.map JVal.jstr)) =
        flattenBody (.jstr (String.intercalate "\n" lines)))
    ∧ flattenBody (.jarr [.jstr "a", .jstr "b", .jstr "c"]) = .ok "a\nb\nc"
    ∧ flattenBody (.jstr "a\nb\nc") = .ok "a\nb\nc" := by
  refine ⟨fun lines => ?_, rfl, rfl⟩
  rw [flattenBody_lines]
  rfl

/-- C7: `normalizeKey` strips exactly one leading backslash whatever
follows it (only the first character is tested), and does not special-case
input that already looks normalized: `"\\zero"` gives `"\<\zero>"` and
`"\<zero>"` gives `"\<<zero>>"`. -/
theorem extract_C7 :
    (∀ t : String, normalizeKey (.jstr ("\\" ++ t)) = .ok ("\\<" ++ t ++ ">"))
    ∧ normalizeKey (.jstr "\\\\zero") = .ok "\\<\\zero>"
    ∧ normalizeKey (.jstr "\\<zero>") = .ok "\\<<zero>>" :=
  ⟨normalizeKey_bs, rfl, rfl⟩

/-- C2: when an entry's normalized key is already present in `out` before the
insertion, the per-key duplicate counter becomes the previous count (0 when
absent) plus one and the body overwrites the stored body; two entries both
normalizing to `"\<dup>"` with bodies `"first"` then `"second"` end with the
key mapped to `"second"` and the counter at 1. -/
theorem extract_C2 :
    (∀ (st : BuildState) (key b : String), (getKey st.out key).isSome = true →
      getKey (store st key b).out key = some b
      ∧ getKey (store st key b).dups key = some ((getKey st.dups key).getD 0 + 1))
    ∧ build [("a", .jobj [("prefix", .jstr "dup"), ("body", .jstr "first")]),
        ("b", .jobj [("prefix", .jstr "dup"), ("body", .jstr "second")])] =
      .ok ⟨[("\\<dup>", "second")], [("\\<dup>", 1)]⟩ := by
  refine ⟨fun st key b h => ⟨?_, ?_⟩, rfl⟩
  · simp [store, getKey_setKey]
  · simp [store, h, getKey_setKey]

/-- Witness for C2 at a one-key state that already holds the key. -/
theorem extract_C2_witness :
    getKey (store ⟨[("k", "x")], []⟩ "k" "y").out "k" = some "y"
    ∧ getKey (store ⟨[("k", "x")], []⟩ "k" "y").dups "k" =
      some ((getKey (BuildState.mk [("k", "x")] []).dups "k").getD 0 + 1) :=
  extract_C2.1 ⟨[("k", "x")], []⟩ "k" "y" rfl

/-- C3: when the input file exists but its content does not parse, the run
exits with status 1 and one diagnostic line naming the path and carrying the
parser's message, and the file system is left untouched. -/
theorem extract_C3 (parse : String → Except String JVal)
    (fs : List (String × String)) (inputPath outputPath content msg : String)
    (hfile : getKey fs inputPath = some content)
    (hparse : parse content = .error msg) :
    run parse fs inputPath outputPath =
      .exited 1 ["Error: Failed to parse JSON from \x27" ++ inputPath ++ "\x27: " ++ msg] fs := by
  simp [run, hfile, hparse]

/-- Witness for C3 with a parser that rejects the concrete content. -/
theorem extract_C3_witness :
    run (fun _ => .error "Expecting value: line 1 column 1 (char 0)")
      [("in.json", "not json")] "in.json" "out.json" =
      .exited 1
        ["Error: Failed to parse JSON from \x27" ++ "in.json" ++ "\x27: " ++
          "Expecting value: line 1 column 1 (char 0)"]
        [("in.json", "not json")] :=
  extract_C3 (fun _ => .error "Expecting value: line 1 column 1 (char 0)")
    [("in.json", "not json")] "in.json" "out.json" "not json"
    "Expecting value: line 1 column 1 (char 0)" rfl rfl

/-- C4: an entry whose `prefix` is the empty string, the empty list, absent
or null, a number, a boolean or an object is skipped with no output and no
error; a non-empty list contributes its first element as the raw trigger and
a non-empty string is used directly. -/
theorem extract_C4 (fields : List (String × JVal)) (st : BuildState) :
    (objGet (.jobj fields) "prefix" = .ok (.jstr "") → stepEntry st (.jobj fields) = .ok st)
    ∧ (objGet (.jobj fields) "prefix" = .ok (.jarr []) → stepEntry st (.jobj fields) = .ok st)
    ∧ (objGet (.jobj fields) "prefix" = .ok .jnull → stepEntry st (.jobj fields) = .ok st)
    ∧ (∀ n, objGet (.jobj fields) "prefix" = .ok (.jnum n) → stepEntry st (.jobj fields) = .ok st)
    ∧ (∀ b, objGet (.jobj fields) "prefix" = .ok (.jbool b) → stepEntry st (.jobj fields) = .ok st)
    ∧ (∀ fs, objGet (.jobj fields) "prefix" = .ok (.jobj fs) → stepEntry st (.jobj fields) = .ok st)
    ∧ (∀ x xs, objGet (.jobj fields) "prefix" = .ok (.jarr (x :: xs)) →
        selectRaw (.jobj fields) = .ok (some x))
    ∧ (∀ s, s ≠ "" → objGet (.jobj fields) "prefix" = .ok (.jstr s) →
        selectRaw (.jobj fields) = .ok (some (.jstr s))) := by
  refine ⟨fun h => ?_, fun h => ?_, fun h => ?_, fun n h => ?_, fun b h => ?_,
    fun fs h => ?_, fun x xs h => ?_, fun s hs h => ?_⟩ <;>
    simp [stepEntry, processEntry, selectRaw, h, truthy]
  simp [bne_iff_ne, hs]

/-- Witness for C4: an empty-string trigger leaves the state unchanged. -/
theorem extract_C4_witness :
    stepEntry ⟨[], []⟩ (.jobj [("prefix", .jstr "")]) = .ok ⟨[], []⟩ :=
  (extract_C4 [("prefix", .jstr "")] ⟨[], []⟩).1 rfl

/-- C8: when the input path does not exist, the run exits with status 1
after one message naming the path, and the file system — in particular any
output path — is left exactly as it was. -/
theorem extract_C8 (parse : String → Except String JVal)
    (fs : List (String × String)) (inputPath outputPath : String)
    (h : getKey fs inputPath = none) :
    run parse fs inputPath outputPath =
      .exited 1 ["Error: Input file \x27" ++ inputPath ++ "\x27 not found."] fs
    ∧ finalFs (run parse fs inputPath outputPath) = fs := by
  constructor <;> simp [run, h, finalFs]

/-- Witness for C8 on an empty file system. -/
theorem extract_C8_witness :
    run (fun _ => .ok .jnull) [] "in.json" "out.json" =
      .exited 1 ["Error: Input file \x27" ++ "in.json" ++ "\x27 not found."] []
    ∧ finalFs (run (fun _ => .ok .jnull) [] "in.json" "out.json") = [] :=
  extract_C8 (fun _ => .ok .jnull) [] "in.json" "out.json" rfl

theorem normalizeKey_wrap_ne_empty (t : String) : "\\<" ++ t ++ ">" ≠ "" := by
  intro h
  have hd := congrArg String.data h
  rw [String.data_append, String.data_append] at hd
  simp at hd

theorem normalizeKey_ok_ne_empty (v : JVal) (k : String)
    (h : normalizeKey v = .ok k) : k ≠ "" := by
  cases v with
  | jstr s =>
    simp only [normalizeKey] at h
    split at h <;>
      · rw [Except.ok.injEq] at h
        subst h
        exact normalizeKey_wrap_ne_empty _
  | jnull => exact Except.noConfusion h
  | jbool b => exact Except.noConfusion h
  | jnum n => exact Except.noConfusion h
  | jarr l => exact Except.noConfusion h
  | jobj l => exact Except.noConfusion h

theorem processEntry_ok_ne_empty (obj : JVal) (k b : String)
    (h : processEntry obj = .ok (some (k, b))) : k ≠ "" := by
  unfold processEntry at h
  split at h
  · exact Except.noConfusion h
  · exact Option.noConfusion (Except.ok.inj h)
  · rename_i raw hsel
    split at h
    · exact Except.noConfusion h
    · rename_i key hkey
      split at h
      · exact Except.noConfusion h
      · rename_i bb hbb
        split at h
        · exact Except.noConfusion h
        · rename_i bodyStr hbody
          obtain ⟨hk, hb⟩ := Prod.mk.inj (Option.some.inj (Except.ok.inj h))
          subst hk
          exact normalizeKey_ok_ne_empty _ _ hkey

theorem build_append (l : List (String × JVal)) (a : String × JVal) :
    build (l ++ [a]) = (build l) >>= fun st => stepEntry st a.2 := by
  unfold build
  rw [List.foldlM_append]
  simp [List.foldlM]

/-- C9: after a successful build, every key of the output table is non-empty
and carries the value of exactly one source entry — the last-processed entry
whose selected raw trigger normalized to that key; no later entry produced
that key. -/
theorem extract_C9 (data : List (String × JVal)) (st : BuildState) (key b : String)
    (hb : build data = .ok st) (hk : getKey st.out key = some b) :
    key ≠ "" ∧ ∃ (pre post : List (String × JVal)) (entry : String × JVal),
      data = pre ++ entry :: post
      ∧ processEntry entry.2 = .ok (some (key, b))
      ∧ ∀ e ∈ post, ∀ b', processEntry e.2 ≠ .ok (some (key, b')) := by
  induction data using List.reverseRecOn generalizing st b with
  | nil =>
    have hst : (⟨[], []⟩ : BuildState) = st := Except.ok.inj hb
    subst hst
    exact Option.noConfusion hk
  | append_singleton l a ih =>
    rw [build_append] at hb
    cases hbl : build l with
    | error e => rw [hbl] at hb; exact Except.noConfusion hb
    | ok st0 =>
      rw [hbl] at hb
      have hb' : stepEntry st0 a.2 = .ok st := hb
      unfold stepEntry at hb'
      cases hpe : processEntry a.2 with
      | error e => rw [hpe] at hb'; exact Except.noConfusion hb'
      | ok o =>
        rw [hpe] at hb'
        cases o with
        | none =>
          have hst : st0 = st := Except.ok.inj hb'
          subst hst
          obtain ⟨hne, pre, post, entry, hdata, hpeE, hlast⟩ := ih st0 b hbl hk
          refine ⟨hne, pre, post ++ [a], entry, by rw [hdata]; simp, hpeE, ?_⟩
          intro e he b'
          rcases List.mem_append.mp he with h1 | h2
          · exact hlast e h1 b'
          · have hea : e = a := by simpa using h2
            subst hea
            rw [hpe]
            intro hcon
            exact Option.noConfusion (Except.ok.inj hcon)
        | some kb =>
          obtain ⟨k', b'⟩ := kb
          have hst : store st0 k' b' = st := Except.ok.inj hb'
          subst hst
          rw [show (store st0 k' b').out = setKey st0.out k' b' from rfl,
            getKey_setKey] at hk
          by_cases hkey : k' = key
          · subst hkey
            rw [if_pos rfl] at hk
            have hbb : b' = b := Option.some.inj hk
            subst hbb
            exact ⟨processEntry_ok_ne_empty a.2 k' b' hpe, l, [], a, by simp, hpe, by simp⟩
          · rw [if_neg hkey] at hk
            obtain ⟨hne, pre, post, entry, hdata, hpeE, hlast⟩ := ih st0 b hbl hk
            refine ⟨hne, pre, post ++ [a], entry, by rw [hdata]; simp, hpeE, ?_⟩
            intro e he b''
            rcases List.mem_append.mp he with h1 | h2
            · exact hlast e h1 b''
            · have hea : e = a := by simpa using h2
              subst hea
              rw [hpe]
              intro hcon
              exact hkey (congrArg Prod.fst (Option.some.inj (Except.ok.inj hcon)))

/-- Witness for C9 on the spec's end-to-end example entry. -/
theorem extract_C9_witness :
    ("\\<zero>" : String) ≠ "" ∧
      ∃ (pre post : List (String × JVal)) (entry : String × JVal),
        [("zero", JVal.jobj [("prefix", .jstr "\\zero"), ("body", .jarr [.jstr "0"])])] =
          pre ++ entry :: post
        ∧ processEntry entry.2 = .ok (some ("\\<zero>", "0"))
        ∧ ∀ e ∈ post, ∀ b', processEntry e.2 ≠ .ok (some ("\\<zero>", b')) :=
  extract_C9 [("zero", JVal.jobj [("prefix", .jstr "\\zero"), ("body", .jarr [.jstr "0"])])]
    ⟨[("\\<zero>", "0")], []⟩ "\\<zero>" "0" rfl rfl

/-- C10: an entry whose `prefix` is a non-empty list with a non-string first
element is not skipped: the key-normalization step receives the non-string
value and raises `AttributeError`, and a run over such an entry ends in an
uncaught exception, not in a skip or a one-line diagnostic exit. -/
theorem extract_C10 (fields : List (String × JVal)) (v : JVal) (rest : List JVal)
    (hpfx : getKey fields "prefix" = some (.jarr (v :: rest)))
    (hv : ∀ s, v ≠ .jstr s) :
    processEntry (.jobj fields) =
      .error ("\x27" ++ pyTypeName v ++ "\x27 object has no attribute \x27startswith\x27")
    ∧ ∀ (name : String) (fs : List (String × String)) (inputPath outputPath content : String),
        getKey fs inputPath = some content →
        run (fun _ => .ok (.jobj [(name, .jobj fields)])) fs inputPath outputPath =
          .crashed ("\x27" ++ pyTypeName v ++ "\x27 object has no attribute \x27startswith\x27")
            fs := by
  have hsel : selectRaw (.jobj fields) = .ok (some v) := by
    simp [selectRaw, objGet, hpfx, truthy]
  have hnk : normalizeKey v =
      .error ("\x27" ++ pyTypeName v ++ "\x27 object has no attribute \x27startswith\x27") := by
    cases v with
    | jstr s => exact absurd rfl (hv s)
    | jnull => rfl
    | jbool b => rfl
    | jnum n => rfl
    | jarr l => rfl
    | jobj l => rfl
  have hpe : processEntry (.jobj fields) =
      .error ("\x27" ++ pyTypeName v ++ "\x27 object has no attribute \x27startswith\x27") := by
    simp [processEntry, hsel, hnk]
  refine ⟨hpe, fun name fs inputPath outputPath content hin => ?_⟩
  simp [run, hin, build, List.foldlM, stepEntry, hpe]

/-- Witness for C10 at the concrete trigger list `[5]`. -/
theorem extract_C10_witness :
    processEntry (.jobj [("prefix", .jarr [.jnum 5])]) =
      .error ("\x27" ++ pyTypeName (.jnum 5) ++ "\x27 object has no attribute \x27startswith\x27") :=
  (extract_C10 [("prefix", .jarr [.jnum 5])] (.jnum 5) [] rfl
    (fun _ h => JVal.noConfusion h)).1

end ExtractSnippets
